import Mathlib

/-!
Shallow embedding of the SPAVIX-AI resilient API-call pipeline, translated
from `src/gemini_image_generate.py` (function `generate_image`) and
`src/gemini_room_detect.py` (function `detect_room`).

Bytes are modelled as `List Nat` (each entry one byte value).  The HTTP layer
is modelled by a function `Nat → HttpAttempt` giving the outcome of each
attempt, and `time.sleep` calls are recorded as a list of slept durations.
File writes to the output path are recorded as a list of written byte buffers.
-/
/-- Models `base64`'s standard alphabet: value `n` (0–63) to its character. -/
def b64Char (n : Nat) : Char :=
  if n < 26 then Char.ofNat (65 + n)
  else if n < 52 then Char.ofNat (97 + (n - 26))
  else if n < 62 then Char.ofNat (48 + (n - 52))
  else if n = 62 then '+'
  else '/'
/-- Models `base64.standard_b64encode` on a byte list (3 bytes to 4 chars,
with `=` padding). -/
def b64EncodeList : List Nat → List Char
  | [] => []
  | [b1] => [b64Char (b1 / 4), b64Char (b1 % 4 * 16), '=', '=']
  | [b1, b2] => [b64Char (b1 / 4), b64Char (b1 % 4 * 16 + b2 / 16), b64Char (b2 % 16 * 4), '=']
  | b1 :: b2 :: b3 :: rest =>
      b64Char (b1 / 4) :: b64Char (b1 % 4 * 16 + b2 / 16) :: b64Char (b2 % 16 * 4 + b3 / 64) ::
        b64Char (b3 % 64) :: b64EncodeList rest
def b64encode (bs : List Nat) : String := String.mk (b64EncodeList bs)
/-- Value of one base64 alphabet character, `none` for a non-alphabet
character. -/
def b64Val (c : Char) : Option Nat :=
  if 'A' ≤ c ∧ c ≤ 'Z' then some (c.toNat - 65)
  else if 'a' ≤ c ∧ c ≤ 'z' then some (c.toNat - 71)
  else if '0' ≤ c ∧ c ≤ '9' then some (c.toNat - 48 + 52)
  else if c = '+' then some 62
  else if c = '/' then some 63
  else none
/-- Models `base64.standard_b64decode` on well-formed input: groups of four
characters with `=` padding at the end; `none` models the `binascii.Error`
raise on malformed input. -/
def b64DecodeGroups : List Char → Option (List Nat)
  | [] => some []
  | c1 :: c2 :: c3 :: c4 :: rest =>
      match b64Val c1, b64Val c2 with
      | some v1, some v2 =>
        if c3 = '=' then
          if c4 = '=' ∧ rest = [] then some [v1 * 4 + v2 / 16] else none
        else
          match b64Val c3 with
          | some v3 =>
            if c4 = '=' then
              if rest = [] then some [v1 * 4 + v2 / 16, v2 % 16 * 16 + v3 / 4] else none
            else
              match b64Val c4, b64DecodeGroups rest with
              | some v4, some tail =>
                  some ((v1 * 4 + v2 / 16) :: (v2 % 16 * 16 + v3 / 4) :: (v3 % 4 * 64 + v4) :: tail)
              | _, _ => none
          | none => none
      | _, _ => none
  | _ => none
def b64decode (s : String) : Option (List Nat) := b64DecodeGroups s.data
/-- The 10,000-byte floor from `gemini_image_generate.py` line 52. -/
def min_image_size : Nat := 10000
def jpegMagic : List Nat := [255, 216, 255]
def pngMagic : List Nat := [137, 80, 78, 71, 13, 10, 26, 10]
def gif87Magic : List Nat := [71, 73, 70, 56, 55, 97]
def gif89Magic : List Nat := [71, 73, 70, 56, 57, 97]
def riffMagic : List Nat := [82, 73, 70, 70]
def webpTag : List Nat := [87, 69, 66, 80]
/-- Models Python's `str.lower` (ASCII suffices for the extensions used). -/
def strLower (s : String) : String := String.mk (s.data.map Char.toLower)
/-- Models Python's `str.endswith` as a character-list suffix test. -/
def strEndsWith (s pat : String) : Bool := pat.data.isSuffixOf s.data
/-- Magic-byte format sniffing with extension fallback, from
`gemini_image_generate.py` lines 58–77.  The second component records
whether the fallback warning diagnostic was emitted. -/
def detectMediaType (image_data : List Nat) (input_image_path : String) : String × Bool :=
  if image_data.take 3 = jpegMagic then ("image/jpeg", false)
  else if image_data.take 8 = pngMagic then ("image/png", false)
  else if image_data.take 6 = gif87Magic ∨ image_data.take 6 = gif89Magic then ("image/gif", false)
  else if image_data.take 4 = riffMagic ∧ (image_data.drop 8).take 4 = webpTag then
    ("image/webp", false)
  else
    let lower := strLower input_image_path
    if strEndsWith lower ".png" then ("image/png", true)
    else if strEndsWith lower ".gif" then ("image/gif", true)
    else if strEndsWith lower ".webp" then ("image/webp", true)
    else ("image/jpeg", true)
structure SafetySetting where
  category : String
  threshold : String
deriving DecidableEq
structure GenerationConfig where
  responseModalities : List String
  temperature : ℚ
  topP : ℚ
  topK : Nat
deriving DecidableEq
structure InlinePayload where
  mimeType : String
  data : String
deriving DecidableEq
inductive ReqPart
  | text (t : String)
  | inlineData (d : InlinePayload)
deriving DecidableEq
structure ReqContent where
  role : String
  parts : List ReqPart
deriving DecidableEq
structure Payload where
  contents : List ReqContent
  generationConfig : GenerationConfig
  safetySettings : List SafetySetting
deriving DecidableEq
/-- The request payload from `gemini_image_generate.py` lines 94–135. -/
def build_payload (prompt media_type image_base64 : String) : Payload :=
  { contents := [{ role := "user",
                   parts := [ReqPart.text prompt,
                             ReqPart.inlineData { mimeType := media_type, data := image_base64 }] }],
    generationConfig :=
      { responseModalities := ["IMAGE"], temperature := 7/10, topP := 19/20, topK := 40 },
    safetySettings := [
      { category := "HARM_CATEGORY_HARASSMENT", threshold := "BLOCK_NONE" },
      { category := "HARM_CATEGORY_HATE_SPEECH", threshold := "BLOCK_NONE" },
      { category := "HARM_CATEGORY_SEXUALLY_EXPLICIT", threshold := "BLOCK_NONE" },
      { category := "HARM_CATEGORY_DANGEROUS_CONTENT", threshold := "BLOCK_NONE" }] }
/-- Response part: `inlineData` models presence of the `'inlineData'` key and,
inside it, presence of the `'data'` key; `text` models the `'text'` key. -/
structure RespPart where
  inlineData : Option (Option String)
  text : Option String
deriving DecidableEq
/-- Response candidate: optional `finishReason`, optional `content` which in
turn optionally holds a `parts` list. -/
structure Candidate where
  finishReason : Option String
  content : Option (Option (List RespPart))
deriving DecidableEq
structure ResponseBody where
  candidates : Option (List Candidate)
deriving DecidableEq
/-- Outcome of one `requests.post` call: an HTTP response, a timeout, or a
network exception. -/
inductive HttpAttempt
  | resp (status : Nat) (body : ResponseBody)
  | timeout
  | netError (msg : String)
deriving DecidableEq
inductive TransportResult
  | success (body : ResponseBody)
  | rateLimited (body : ResponseBody)
  | terminalStatus (status : Nat) (body : ResponseBody)
  | timeoutFail
  | netFail (msg : String)
  | noValidResponse
deriving DecidableEq
def max_retries : Nat := 3
/-- The retry loop of `gemini_image_generate.py` lines 137–191.  `rem` is
`max_retries - retry_count` (the loop guard `retry_count < max_retries` is
`0 < rem`), `made` counts HTTP attempts issued so far, and `sleeps` accumulates
the `time.sleep` durations (`2 ** retry_count` after the increment). -/
def transportLoop (f : Nat → HttpAttempt) : Nat → Nat → List Nat → TransportResult × Nat × List Nat
  | 0, made, sleeps => (.noValidResponse, made, sleeps)
  | rem + 1, made, sleeps =>
    match f made with
    | .resp s body =>
      if s = 200 then (.success body, made + 1, sleeps)
      else if s = 429 then
        if 0 < rem then transportLoop f rem (made + 1) (sleeps ++ [2 ^ (max_retries - rem)])
        else (.rateLimited body, made + 1, sleeps)
      else (.terminalStatus s body, made + 1, sleeps)
    | .timeout =>
      if 0 < rem then transportLoop f rem (made + 1) (sleeps ++ [2 ^ (max_retries - rem)])
      else (.timeoutFail, made + 1, sleeps)
    | .netError m =>
      if 0 < rem then transportLoop f rem (made + 1) (sleeps ++ [2 ^ (max_retries - rem)])
      else (.netFail m, made + 1, sleeps)
/-- Returns the transport result, the total number of HTTP attempts made,
and the list of backoff sleeps, in order. -/
def transport (f : Nat → HttpAttempt) : TransportResult × Nat × List Nat :=
  transportLoop f max_retries 0 []
/-- Result of the extraction block, `gemini_image_generate.py` lines 195–234:
`saved` is the success path (bytes written to the output file); `noImage` is
the `finishReason == 'NO_IMAGE'` exit carrying the full raw response dump;
`noImageData` is the final `'No image data received'` exit carrying the
(truncated) response dump; `exc` models a raised exception (base64 decode
failure) caught by the surrounding `except Exception` handler. -/
inductive ExtractOutcome
  | saved (bytes : List Nat)
  | noImage (raw : ResponseBody)
  | noImageData (raw : ResponseBody)
  | exc
deriving DecidableEq
inductive PartScan
  | saved (bytes : List Nat)
  | exc
  | noSave
deriving DecidableEq
/-- The inner `for part in candidate['content']['parts']` loop
(lines 211–225).  Returns the scan result, the text diagnostics printed
(each truncated to 100 characters as in `part['text'][:100]`), and the
file writes performed. -/
def scanParts : List RespPart → PartScan × List String × List (List Nat)
  | [] => (.noSave, [], [])
  | p :: rest =>
    match p.inlineData with
    | some dOpt =>
      match dOpt with
      | some s =>
        if s ≠ "" then
          match b64decode s with
          | some bytes => (.saved bytes, [], [bytes])
          | none => (.exc, [], [])
        else scanParts rest
      | none => scanParts rest
    | none =>
      match p.text with
      | some t =>
        match scanParts rest with
        | (r, ds, ws) => (r, t.take 100 :: ds, ws)
      | none => scanParts rest
/-- Models `candidate.get('finishReason', 'UNKNOWN')`. -/
def finishOf (c : Candidate) : String := c.finishReason.getD "UNKNOWN"
/-- The outer `for candidate in response_json['candidates']` loop
(lines 200–229). -/
def extractLoop (resp : ResponseBody) : List Candidate → ExtractOutcome × List String × List (List Nat)
  | [] => (.noImageData resp, [], [])
  | c :: rest =>
    if finishOf c = "NO_IMAGE" then (.noImage resp, [], [])
    else
      match c.content with
      | some (some ps) =>
        match scanParts ps with
        | (.saved b, ds, ws) => (.saved b, ds, ws)
        | (.exc, ds, ws) => (.exc, ds, ws)
        | (.noSave, ds, ws) =>
          match extractLoop resp rest with
          | (o, ds2, ws2) => (o, ds ++ ds2, ws ++ ws2)
      | _ => extractLoop resp rest
/-- Extraction from a successful response body (lines 195–234), including the
`if 'candidates' in response_json and response_json['candidates']:`
truthiness guard. -/
def extractImage (resp : ResponseBody) : ExtractOutcome × List String × List (List Nat) :=
  match resp.candidates with
  | some cs => if cs.isEmpty then (.noImageData resp, [], []) else extractLoop resp cs
  | none => (.noImageData resp, [], [])
inductive RunResult
  | configError
  | inputNotFound
  | emptyInput
  | inputTooSmall
  | transportFail (t : TransportResult)
  | extract (o : ExtractOutcome)
deriving DecidableEq
/-- Observable trace of one `generate_image` run: its terminal result, the
number of HTTP attempts issued, the backoff sleeps, and the byte buffers
written to the output path. -/
structure RunTrace where
  result : RunResult
  attempts : Nat
  sleeps : List Nat
  writes : List (List Nat)
deriving DecidableEq
/-- The `generate_image` pipeline of `gemini_image_generate.py`: API-key
check, input-existence check, empty check, 10,000-byte floor, media-type
sniffing, payload construction, retrying transport, and extraction. -/
def generate_image (api_key : Option String) (input_exists : Bool) (image_data : List Nat)
    (prompt input_image_path : String) (f : Nat → HttpAttempt) : RunTrace :=
  match api_key with
  | none => ⟨.configError, 0, [], []⟩
  | some _ =>
    if ¬ input_exists then ⟨.inputNotFound, 0, [], []⟩
    else if image_data.length = 0 then ⟨.emptyInput, 0, [], []⟩
    else if image_data.length < min_image_size then ⟨.inputTooSmall, 0, [], []⟩
    else
      let media_type := (detectMediaType image_data input_image_path).1
      let _payload := build_payload prompt media_type (b64encode image_data)
      match transport f with
      | (.success body, n, ss) =>
        match extractImage body with
        | (o, _ds, ws) => ⟨.extract o, n, ss, ws⟩
      | (r, n, ss) => ⟨.transportFail r, n, ss, []⟩
/-- Models `str.rfind('.')`: index of the last dot in the string, if any. -/
def rfindDot (name : String) : Option Nat :=
  ((List.range name.length).filter (fun i => name.data.getD i ' ' = '.')).getLast?
/-- Models `pathlib.PurePath.name` for the paths at hand. -/
def pathName (p : String) : String := ((p.splitOn "/").getLast?).getD ""
/-- Models `pathlib.PurePath.suffix`: the extension of the final component
(`name[i:]` when `0 < i < len(name) - 1` for the last dot index `i`). -/
def pathSuffix (p : String) : String :=
  let name := pathName p
  match rfindDot name with
  | some i => if 0 < i ∧ i < name.length - 1 then name.drop i else ""
  | none => ""
/-- Extension-to-MIME map of `gemini_room_detect.py` lines 19–26, with the
`image/jpeg` default. -/
def roomMime (input_image_path : String) : String :=
  let ext := strLower (pathSuffix input_image_path)
  if ext = ".jpg" ∨ ext = ".jpeg" then "image/jpeg"
  else if ext = ".png" then "image/png"
  else if ext = ".webp" then "image/webp"
  else if ext = ".gif" then "image/gif"
  else "image/jpeg"
/-- The unguarded extraction `result['candidates'][0]['content']['parts'][0]['text'].strip()`
of `gemini_room_detect.py` line 53.  A missing field raises (`Except.error`
models the uncaught `KeyError`/`IndexError`). -/
def extractRoomText (result : ResponseBody) : Except String String :=
  match result.candidates with
  | none => .error "KeyError: candidates"
  | some cs =>
    match cs with
    | [] => .error "IndexError: list index out of range"
    | c :: _ =>
      match c.content with
      | none => .error "KeyError: content"
      | some none => .error "KeyError: parts"
      | some (some ps) =>
        match ps with
        | [] => .error "IndexError: list index out of range"
        | p :: _ =>
          match p.text with
          | none => .error "KeyError: text"
          | some t => .ok t.trim
inductive RoomResult
  | configError
  | apiError (status : Nat) (body : ResponseBody)
  | printed (text : String)
  | raised (msg : String)
deriving DecidableEq
/-- The `detect_room` pipeline of `gemini_room_detect.py`: API-key check,
unconditional base64 encoding (note: no size validation at all), a single
HTTP attempt, non-200 exit, then the unguarded extraction.  The second
component counts HTTP attempts issued. -/
def detect_room (api_key : Option String) (_prompt : String) (image_data : List Nat)
    (input_image_path : String) (attempt : Nat × ResponseBody) : RoomResult × Nat :=
  match api_key with
  | none => (.configError, 0)
  | some _ =>
    let _data := b64encode image_data
    let _mime := roomMime input_image_path
    match attempt with
    | (status, body) =>
      if status ≠ 200 then (.apiError status body, 1)
      else
        match extractRoomText body with
        | .ok t => (.printed t, 1)
        | .error e => (.raised e, 1)
/-- Relation between a run's terminal result and its output-file writes:
bytes are written exactly on the `saved` extraction outcome, once, and only
as the output of a successful base64 decode. -/
def writesOk (t : RunTrace) : Prop :=
  match t.result with
  | .extract (.saved b) => t.writes = [b] ∧ ∃ s, b64decode s = some b
  | _ => t.writes = []
/-- True when the candidate has content and parts but its parts walk neither
saves an image nor raises. -/
def candNoSave (c : Candidate) : Bool :=
  match c.content with
  | some (some ps) =>
    match (scanParts ps).1 with
    | .noSave => true
    | _ => false
  | _ => true
/-- No part anywhere in the response carries an `'inlineData'` key. -/
def candNoInline (c : Candidate) : Bool :=
  match c.content with
  | some (some ps) => ps.all (fun p => p.inlineData.isNone)
  | _ => true
def respNoInline (r : ResponseBody) : Bool :=
  match r.candidates with
  | some cs => cs.all candNoInline
  | none => true
def respNoNoImage (r : ResponseBody) : Bool :=
  match r.candidates with
  | some cs => cs.all (fun c => finishOf c != "NO_IMAGE")
  | none => true
/-- HTTP attempt outcomes the retry loop treats as retryable. -/
def retryable : HttpAttempt → Bool
  | .resp s _ => s == 429
  | .timeout => true
  | .netError _ => true
/-- Transport results reachable only by exhausting all retry attempts. -/
def isExhausted : TransportResult → Bool
  | .rateLimited _ => true
  | .timeoutFail => true
  | .netFail _ => true
  | _ => false
def attemptsRRS : Nat → HttpAttempt := fun n =>
  if n = 0 then .resp 429 ⟨none⟩ else if n = 1 then .resp 429 ⟨none⟩ else .resp 200 ⟨some []⟩
def attempts500 : Nat → HttpAttempt := fun _ => .resp 500 ⟨none⟩
def attempts429 : Nat → HttpAttempt := fun _ => .resp 429 ⟨none⟩
def exSavedThenNoImage : ResponseBody :=
  ⟨some [⟨some "STOP", some (some [⟨some (some "QQ=="), none⟩])⟩, ⟨some "NO_IMAGE", none⟩]⟩
def exNoImageSecond : ResponseBody :=
  ⟨some [⟨some "STOP", some (some [⟨none, some "thinking"⟩])⟩,
         ⟨some "NO_IMAGE", none⟩,
         ⟨some "STOP", some (some [⟨some (some "QQ=="), none⟩])⟩]⟩
def exTextResp : ResponseBody :=
  ⟨some [⟨some "STOP", some (some [⟨none, some "I cannot generate that image"⟩])⟩]⟩
def exEmptyContent : ResponseBody := ⟨some [⟨some "STOP", none⟩]⟩
def exMalformed : ResponseBody :=
  ⟨some [⟨some "STOP", none⟩, ⟨none, some none⟩, ⟨none, some (some [⟨none, none⟩])⟩]⟩
/-! ## Transport lemmas -/

theorem transportLoop_attempts_le (f : Nat → HttpAttempt) :
    ∀ (rem made : Nat) (sleeps : List Nat),
      (transportLoop f rem made sleeps).2.1 ≤ made + rem := by
  intro rem
  induction rem with
  | zero => intro made sleeps; simp [transportLoop]
  | succ r ih =>
    intro made sleeps
    unfold transportLoop
    cases f made with
    | resp s body =>
      dsimp only
      by_cases h200 : s = 200
      · simp [h200]
      · by_cases h429 : s = 429
        · by_cases hr : 0 < r
          · simp only [h200, if_false, h429, if_true, hr]
            exact le_trans (ih (made + 1) _) (by omega)
          · simp [h200, h429, hr]
        · simp [h200, h429]
    | timeout =>
      dsimp only
      by_cases hr : 0 < r
      · simp only [hr, if_true]
        exact le_trans (ih (made + 1) _) (by omega)
      · simp [hr]
    | netError m =>
      dsimp only
      by_cases hr : 0 < r
      · simp only [hr, if_true]
        exact le_trans (ih (made + 1) _) (by omega)
      · simp [hr]
theorem scheduleShift (m r k : Nat) (h : r + 1 ≤ m) :
    (List.range (k + 1)).map (fun i => 2 ^ (m - (r + 1) + 1 + i)) =
      2 ^ (m - r) :: (List.range k).map (fun i => 2 ^ (m - r + 1 + i)) := by
  rw [List.range_succ_eq_map, List.map_cons, List.map_map]
  congr 1
  · show 2 ^ (m - (r + 1) + 1 + 0) = 2 ^ (m - r)
    congr 1
    omega
  · apply List.map_congr_left
    intro i _
    show 2 ^ (m - (r + 1) + 1 + Nat.succ i) = 2 ^ (m - r + 1 + i)
    congr 1
    omega
theorem transportLoop_sleeps (f : Nat → HttpAttempt) :
    ∀ (rem made : Nat) (sleeps : List Nat), rem ≤ max_retries →
      ∃ k, k ≤ rem - 1 ∧ (transportLoop f rem made sleeps).2.2 =
        sleeps ++ (List.range k).map (fun i => 2 ^ (max_retries - rem + 1 + i)) := by
  intro rem
  induction rem with
  | zero =>
    intro made sleeps _
    exact ⟨0, by omega, by simp [transportLoop]⟩
  | succ r ih =>
    intro made sleeps hle
    have hstep : 0 < r →
        (∃ k, k ≤ r - 1 ∧ (transportLoop f r (made + 1) (sleeps ++ [2 ^ (max_retries - r)])).2.2 =
          (sleeps ++ [2 ^ (max_retries - r)]) ++
            (List.range k).map (fun i => 2 ^ (max_retries - r + 1 + i))) →
        ∃ k', k' ≤ r + 1 - 1 ∧
          (transportLoop f r (made + 1) (sleeps ++ [2 ^ (max_retries - r)])).2.2 =
            sleeps ++ (List.range k').map (fun i => 2 ^ (max_retries - (r + 1) + 1 + i)) := by
      rintro hr ⟨k, hk, heq⟩
      refine ⟨k + 1, by omega, ?_⟩
      rw [heq, scheduleShift max_retries r k hle, List.append_assoc, List.singleton_append]
    unfold transportLoop
    cases f made with
    | resp s body =>
      dsimp only
      by_cases h200 : s = 200
      · exact ⟨0, by omega, by simp [h200]⟩
      · by_cases h429 : s = 429
        · by_cases hr : 0 < r
          · simp only [h200, if_false, h429, if_true, hr]
            exact hstep hr (ih (made + 1) (sleeps ++ [2 ^ (max_retries - r)]) (by omega))
          · exact ⟨0, by omega, by simp [h200, h429, hr]⟩
        · exact ⟨0, by omega, by simp [h200, h429]⟩
    | timeout =>
      dsimp only
      by_cases hr : 0 < r
      · simp only [hr, if_true]
        exact hstep hr (ih (made + 1) (sleeps ++ [2 ^ (max_retries - r)]) (by omega))
      · exact ⟨0, by omega, by simp [hr]⟩
    | netError m =>
      dsimp only
      by_cases hr : 0 < r
      · simp only [hr, if_true]
        exact hstep hr (ih (made + 1) (sleeps ++ [2 ^ (max_retries - r)]) (by omega))
      · exact ⟨0, by omega, by simp [hr]⟩
theorem transportLoop_exhaust (f : Nat → HttpAttempt) :
    ∀ (rem made : Nat) (sleeps : List Nat), 0 < rem →
      (∀ i, made ≤ i → i < made + rem → retryable (f i) = true) →
      isExhausted (transportLoop f rem made sleeps).1 = true ∧
      (transportLoop f rem made sleeps).2.1 = made + rem ∧
      (∀ b, f (made + rem - 1) = .resp 429 b →
        (transportLoop f rem made sleeps).1 = .rateLimited b) := by
  intro rem
  induction rem with
  | zero => intro made sleeps h; omega
  | succ r ih =>
    intro made sleeps _ hall
    have hmade := hall made (le_refl _) (by omega)
    unfold transportLoop
    cases hf : f made with
    | resp s body =>
      rw [hf] at hmade
      have hs : s = 429 := by simpa [retryable] using hmade
      subst hs
      dsimp only
      rw [if_neg (by decide : ¬(429 : Nat) = 200), if_pos rfl]
      by_cases hr : 0 < r
      · rw [if_pos hr]
        have hrec := ih (made + 1) (sleeps ++ [2 ^ (max_retries - r)]) hr
          (fun i h1 h2 => hall i (by omega) (by omega))
        refine ⟨hrec.1, ?_, ?_⟩
        · rw [hrec.2.1]; omega
        · intro b hb
          have hidx : made + (r + 1) - 1 = made + 1 + r - 1 := by omega
          rw [hidx] at hb
          exact hrec.2.2 b hb
      · have hr0 : r = 0 := by omega
        subst hr0
        rw [if_neg (lt_irrefl 0)]
        refine ⟨rfl, rfl, ?_⟩
        intro b hb
        rw [show made + (0 + 1) - 1 = made by omega, hf] at hb
        injection hb with _ h2
        subst h2
        rfl
    | timeout =>
      dsimp only
      by_cases hr : 0 < r
      · rw [if_pos hr]
        have hrec := ih (made + 1) (sleeps ++ [2 ^ (max_retries - r)]) hr
          (fun i h1 h2 => hall i (by omega) (by omega))
        refine ⟨hrec.1, ?_, ?_⟩
        · rw [hrec.2.1]; omega
        · intro b hb
          have hidx : made + (r + 1) - 1 = made + 1 + r - 1 := by omega
          rw [hidx] at hb
          exact hrec.2.2 b hb
      · have hr0 : r = 0 := by omega
        subst hr0
        rw [if_neg (lt_irrefl 0)]
        refine ⟨rfl, rfl, ?_⟩
        intro b hb
        rw [show made + (0 + 1) - 1 = made by omega, hf] at hb
        simp at hb
    | netError m =>
      dsimp only
      by_cases hr : 0 < r
      · rw [if_pos hr]
        have hrec := ih (made + 1) (sleeps ++ [2 ^ (max_retries - r)]) hr
          (fun i h1 h2 => hall i (by omega) (by omega))
        refine ⟨hrec.1, ?_, ?_⟩
        · rw [hrec.2.1]; omega
        · intro b hb
          have hidx : made + (r + 1) - 1 = made + 1 + r - 1 := by omega
          rw [hidx] at hb
          exact hrec.2.2 b hb
      · have hr0 : r = 0 := by omega
        subst hr0
        rw [if_neg (lt_irrefl 0)]
        refine ⟨rfl, rfl, ?_⟩
        intro b hb
        rw [show made + (0 + 1) - 1 = made by omega, hf] at hb
        simp at hb
/-! ## Claim theorems: transport and payload -/
/-- C3: if the transport receives HTTP 429 on the first two attempts and
HTTP 200 on the third, it sleeps exactly 2 seconds after the first attempt
and 4 seconds after the second, returns Success (with the third response)
on the third attempt, and makes exactly 3 attempts in total. -/
theorem C3_429_429_200 (f : Nat → HttpAttempt) (b0 b1 b2 : ResponseBody)
    (h0 : f 0 = .resp 429 b0) (h1 : f 1 = .resp 429 b1) (h2 : f 2 = .resp 200 b2) :
    transport f = (.success b2, 3, [2, 4]) := by
  simp [transport, transportLoop, max_retries, h0, h1, h2]
/-- Witness for C3 at a concrete attempt sequence. -/
theorem C3_429_429_200_witness :
    transport attemptsRRS = (.success ⟨some []⟩, 3, [2, 4]) :=
  C3_429_429_200 attemptsRRS ⟨none⟩ ⟨none⟩ ⟨some []⟩ rfl rfl rfl
/-- C4: an attempt returning any non-200, non-429 status yields an immediate
terminal failure carrying status and body, with no further attempt and no
backoff sleep: on the first attempt exactly one attempt is made (and after a
retried 429, a non-200/non-429 second attempt stops at two attempts with only
the first backoff).  The `detect_room` transport likewise exits on its single
attempt for any non-200 status. -/
theorem C4_terminal_on_other_status :
    (∀ (f : Nat → HttpAttempt) (s : Nat) (b : ResponseBody),
        s ≠ 200 → s ≠ 429 → f 0 = .resp s b →
        transport f = (.terminalStatus s b, 1, [])) ∧
    (∀ (f : Nat → HttpAttempt) (b0 b : ResponseBody) (s : Nat),
        f 0 = .resp 429 b0 → f 1 = .resp s b → s ≠ 200 → s ≠ 429 →
        transport f = (.terminalStatus s b, 2, [2])) ∧
    (∀ (key pr : String) (image_data : List Nat) (path : String) (s : Nat) (b : ResponseBody),
        s ≠ 200 → detect_room (some key) pr image_data path (s, b) = (.apiError s b, 1)) := by
  refine ⟨?_, ?_, ?_⟩
  · intro f s b hs200 hs429 h0
    simp [transport, transportLoop, max_retries, h0, hs200, hs429]
  · intro f b0 b s h0 h1 hs200 hs429
    simp [transport, transportLoop, max_retries, h0, h1, hs200, hs429]
  · intro key pr image_data path s b hs
    simp [detect_room, hs]
/-- Witness for C4: an always-500 transport makes exactly one attempt with no
sleeps, and `detect_room` exits on a 500 with one attempt. -/
theorem C4_terminal_on_other_status_witness :
    transport attempts500 = (.terminalStatus 500 ⟨none⟩, 1, []) ∧
    detect_room (some "key") "p" [1, 2, 3] "room.jpg" (500, ⟨none⟩) = (.apiError 500 ⟨none⟩, 1) :=
  ⟨C4_terminal_on_other_status.1 attempts500 500 ⟨none⟩ (by decide) (by decide) rfl,
   C4_terminal_on_other_status.2.2 "key" "p" [1, 2, 3] "room.jpg" 500 ⟨none⟩ (by decide)⟩
/-- C7: for every sequence of HTTP outcomes the transport makes at most 3
attempts; the backoff sleeps are always a prefix of the schedule `[2, 4]`
(that is, `2 ^ attemptNumber`, a function of the attempt count alone —
server-supplied data never enters the computation); and when all attempts
are retryable the result is an exhaustion terminal failure which, when the
last attempt was a 429 response, carries that last response body. -/
theorem C7_transport_invariants (f : Nat → HttpAttempt) :
    (transport f).2.1 ≤ 3 ∧
    ((transport f).2.2 = [] ∨ (transport f).2.2 = [2] ∨ (transport f).2.2 = [2, 4]) ∧
    ((∀ i, i < 3 → retryable (f i) = true) →
      isExhausted (transport f).1 = true ∧ (transport f).2.1 = 3 ∧
      ∀ b, f 2 = .resp 429 b → (transport f).1 = .rateLimited b) := by
  refine ⟨?_, ?_, ?_⟩
  · simpa [transport, max_retries] using transportLoop_attempts_le f max_retries 0 []
  · simp only [transport]
    obtain ⟨k, hk, heq⟩ := transportLoop_sleeps f max_retries 0 [] (le_refl _)
    have hk2 : k ≤ 2 := by simpa [max_retries] using hk
    interval_cases k <;> rw [heq] <;> decide
  · intro hall
    have h := transportLoop_exhaust f max_retries 0 [] (by decide)
      (fun i _ h2 => hall i (by simpa [max_retries] using h2))
    refine ⟨h.1, by simpa [transport, max_retries] using h.2.1, ?_⟩
    intro b hb
    exact h.2.2 b (by simpa [max_retries] using hb)
/-- Witness for C7 at an always-429 transport: exhaustion with the last body. -/
theorem C7_transport_invariants_witness :
    (transport attempts429).2.1 ≤ 3 ∧
    isExhausted (transport attempts429).1 = true ∧
    (transport attempts429).1 = .rateLimited ⟨none⟩ := by
  have h := C7_transport_invariants attempts429
  have hex := h.2.2 (fun i _ => rfl)
  exact ⟨h.1, hex.1, hex.2.2 ⟨none⟩ rfl⟩
/-- C10: the default image-generation payload carries exactly the four safety
categories, each with threshold `BLOCK_NONE`, and a generation-config block
requesting the `IMAGE` output modality. -/
theorem C10_payload_defaults (prompt media_type image_base64 : String) :
    (build_payload prompt media_type image_base64).safetySettings =
      [{ category := "HARM_CATEGORY_HARASSMENT", threshold := "BLOCK_NONE" },
       { category := "HARM_CATEGORY_HATE_SPEECH", threshold := "BLOCK_NONE" },
       { category := "HARM_CATEGORY_SEXUALLY_EXPLICIT", threshold := "BLOCK_NONE" },
       { category := "HARM_CATEGORY_DANGEROUS_CONTENT", threshold := "BLOCK_NONE" }] ∧
    (build_payload prompt media_type image_base64).generationConfig.responseModalities = ["IMAGE"] :=
  ⟨rfl, rfl⟩
/-! ## Extraction lemmas -/

theorem scanParts_noInline :
    ∀ ps : List RespPart, (∀ p ∈ ps, p.inlineData = none) →
      (scanParts ps).1 = .noSave := by
  intro ps
  induction ps with
  | nil => intro _; rfl
  | cons p rest ih =>
    intro h
    have hp : p.inlineData = none := h p (List.mem_cons_self p rest)
    have hrest := ih (fun q hq => h q (List.mem_cons_of_mem p hq))
    unfold scanParts
    rw [hp]
    dsimp only
    cases ht : p.text with
    | some t =>
      rcases hsr : scanParts rest with ⟨r, ds, ws⟩
      rw [hsr] at hrest
      exact hrest
    | none => exact hrest
theorem scanParts_text_mem :
    ∀ (ps : List RespPart) (t : String), (∀ p ∈ ps, p.inlineData = none) →
      (∃ p ∈ ps, p.text = some t) → t.take 100 ∈ (scanParts ps).2.1 := by
  intro ps
  induction ps with
  | nil =>
    intro t _ h
    rcases h with ⟨p, hp, _⟩
    simp at hp
  | cons p rest ih =>
    intro t hni hex
    have hp : p.inlineData = none := hni p (List.mem_cons_self p rest)
    unfold scanParts
    rw [hp]
    dsimp only
    rcases hex with ⟨q, hq, hqt⟩
    rcases List.mem_cons.mp hq with hq1 | hq2
    · subst hq1
      rw [hqt]
      rcases hsr : scanParts rest with ⟨r, ds, ws⟩
      exact List.mem_cons_self _ _
    · cases ht : p.text with
      | some t2 =>
        rcases hsr : scanParts rest with ⟨r, ds, ws⟩
        have hmem := ih t (fun q' hq' => hni q' (List.mem_cons_of_mem p hq')) ⟨q, hq2, hqt⟩
        rw [hsr] at hmem
        exact List.mem_cons_of_mem _ hmem
      | none =>
        exact ih t (fun q' hq' => hni q' (List.mem_cons_of_mem p hq')) ⟨q, hq2, hqt⟩
theorem scanParts_writes :
    ∀ ps : List RespPart,
      (∃ b, (scanParts ps).1 = .saved b ∧ (scanParts ps).2.2 = [b] ∧
        ∃ s, b64decode s = some b) ∨
      ((scanParts ps).2.2 = [] ∧ ∀ b, (scanParts ps).1 ≠ .saved b) := by
  intro ps
  induction ps with
  | nil => right; exact ⟨rfl, fun b h => by cases h⟩
  | cons p rest ih =>
    unfold scanParts
    cases hp : p.inlineData with
    | some dOpt =>
      cases dOpt with
      | some s =>
        dsimp only
        by_cases hs : s ≠ ""
        · rw [if_pos hs]
          cases hd : b64decode s with
          | some bytes => left; exact ⟨bytes, rfl, rfl, s, hd⟩
          | none => right; exact ⟨rfl, fun b h => by cases h⟩
        · rw [if_neg hs]
          exact ih
      | none => exact ih
    | none =>
      dsimp only
      cases ht : p.text with
      | some t =>
        rcases hsr : scanParts rest with ⟨r, ds, ws⟩
        rw [hsr] at ih
        dsimp only at ih ⊢
        exact ih
      | none => exact ih
theorem candNoInline_parts {c : Candidate} {ps : List RespPart}
    (hcon : c.content = some (some ps)) (h : candNoInline c = true) :
    ∀ p ∈ ps, p.inlineData = none := by
  simp only [candNoInline, hcon] at h
  intro p hp
  have := List.all_eq_true.mp h p hp
  exact Option.isNone_iff_eq_none.mp (by simpa using this)
theorem extractLoop_allNoSave (resp : ResponseBody) :
    ∀ cs : List Candidate,
      (∀ c ∈ cs, finishOf c ≠ "NO_IMAGE") →
      (∀ c ∈ cs, candNoInline c = true) →
      (extractLoop resp cs).1 = .noImageData resp := by
  intro cs
  induction cs with
  | nil => intro _ _; rfl
  | cons c rest ih =>
    intro hfin hni
    have hc : finishOf c ≠ "NO_IMAGE" := hfin c (List.mem_cons_self _ _)
    have hrest := ih (fun c' h => hfin c' (List.mem_cons_of_mem c h))
      (fun c' h => hni c' (List.mem_cons_of_mem c h))
    unfold extractLoop
    rw [if_neg hc]
    cases hcon : c.content with
    | none => exact hrest
    | some po =>
      cases po with
      | none => exact hrest
      | some ps =>
        dsimp only
        have hnoinl := candNoInline_parts hcon (hni c (List.mem_cons_self _ _))
        have hscan := scanParts_noInline ps hnoinl
        rcases hsr : scanParts ps with ⟨r, ds, ws⟩
        rw [hsr] at hscan
        dsimp only at hscan
        subst hscan
        dsimp only
        exact hrest
theorem extractLoop_text_mem (resp : ResponseBody) :
    ∀ (cs : List Candidate) (t : String),
      (∀ c ∈ cs, finishOf c ≠ "NO_IMAGE") →
      (∀ c ∈ cs, candNoInline c = true) →
      (∃ c ∈ cs, ∃ ps, c.content = some (some ps) ∧ ∃ p ∈ ps, p.text = some t) →
      t.take 100 ∈ (extractLoop resp cs).2.1 := by
  intro cs
  induction cs with
  | nil =>
    intro t _ _ h
    rcases h with ⟨c, hc, _⟩
    simp at hc
  | cons c rest ih =>
    intro t hfin hni hex
    have hc : finishOf c ≠ "NO_IMAGE" := hfin c (List.mem_cons_self _ _)
    unfold extractLoop
    rw [if_neg hc]
    rcases hex with ⟨q, hq, ps0, hqcon, hp⟩
    rcases List.mem_cons.mp hq with hq1 | hq2
    · subst hq1
      rw [hqcon]
      dsimp only
      have hnoinl := candNoInline_parts hqcon (hni q (List.mem_cons_self _ _))
      have hscan := scanParts_noInline ps0 hnoinl
      have hmem := scanParts_text_mem ps0 t hnoinl hp
      rcases hsr : scanParts ps0 with ⟨r, ds, ws⟩
      rw [hsr] at hscan hmem
      dsimp only at hscan hmem
      subst hscan
      dsimp only
      exact List.mem_append_left _ hmem
    · have hrest := ih t (fun c' h => hfin c' (List.mem_cons_of_mem c h))
        (fun c' h => hni c' (List.mem_cons_of_mem c h)) ⟨q, hq2, ps0, hqcon, hp⟩
      cases hcon : c.content with
      | none => exact hrest
      | some po =>
        cases po with
        | none => exact hrest
        | some ps =>
          dsimp only
          have hnoinl := candNoInline_parts hcon (hni c (List.mem_cons_self _ _))
          have hscan := scanParts_noInline ps hnoinl
          rcases hsr : scanParts ps with ⟨r, ds, ws⟩
          rw [hsr] at hscan
          dsimp only at hscan
          subst hscan
          dsimp only
          exact List.mem_append_right _ hrest
theorem extractLoop_noImage_at (resp : ResponseBody) :
    ∀ (pre : List Candidate) (c : Candidate) (post : List Candidate),
      finishOf c = "NO_IMAGE" →
      (∀ c' ∈ pre, finishOf c' = "NO_IMAGE" ∨ candNoSave c' = true) →
      (extractLoop resp (pre ++ c :: post)).1 = .noImage resp := by
  intro pre
  induction pre with
  | nil =>
    intro c post hfin _
    simp only [List.nil_append]
    unfold extractLoop
    rw [if_pos hfin]
  | cons c' pre' ih =>
    intro c post hfin hpre
    simp only [List.cons_append]
    unfold extractLoop
    by_cases hfin' : finishOf c' = "NO_IMAGE"
    · rw [if_pos hfin']
    · rw [if_neg hfin']
      have h2 : candNoSave c' = true := by
        rcases hpre c' (List.mem_cons_self _ _) with h | h
        · exact absurd h hfin'
        · exact h
      have hrec := ih c post hfin (fun x hx => hpre x (List.mem_cons_of_mem _ hx))
      cases hcon : c'.content with
      | none => exact hrec
      | some po =>
        cases po with
        | none => exact hrec
        | some ps =>
          dsimp only
          have hnos : (scanParts ps).1 = PartScan.noSave := by
            simp only [candNoSave, hcon] at h2
            cases hps : (scanParts ps).1 with
            | saved b => rw [hps] at h2; simp at h2
            | exc => rw [hps] at h2; simp at h2
            | noSave => rfl
          rcases hsr : scanParts ps with ⟨r, ds, ws⟩
          rw [hsr] at hnos
          dsimp only at hnos
          subst hnos
          dsimp only
          exact hrec
theorem extractLoop_writes (resp : ResponseBody) :
    ∀ cs : List Candidate,
      (∃ b, (extractLoop resp cs).1 = .saved b ∧ (extractLoop resp cs).2.2 = [b] ∧
        ∃ s, b64decode s = some b) ∨
      ((extractLoop resp cs).2.2 = [] ∧ ∀ b, (extractLoop resp cs).1 ≠ .saved b) := by
  intro cs
  induction cs with
  | nil => right; exact ⟨rfl, fun b h => by cases h⟩
  | cons c rest ih =>
    unfold extractLoop
    by_cases hfin : finishOf c = "NO_IMAGE"
    · rw [if_pos hfin]
      right
      exact ⟨rfl, fun b h => by cases h⟩
    · rw [if_neg hfin]
      cases hcon : c.content with
      | none => exact ih
      | some po =>
        cases po with
        | none => exact ih
        | some ps =>
          dsimp only
          have hw := scanParts_writes ps
          rcases hsr : scanParts ps with ⟨r, ds, ws⟩
          rw [hsr] at hw
          dsimp only at hw
          cases r with
          | saved b =>
            dsimp only
            rcases hw with ⟨b2, h1, h2, h3⟩ | ⟨h1, h2⟩
            · injection h1 with hb
              subst hb
              exact Or.inl ⟨_, rfl, h2, h3⟩
            · exact absurd rfl (h2 b)
          | exc =>
            dsimp only
            rcases hw with ⟨b2, h1, _, _⟩ | ⟨h1, h2⟩
            · cases h1
            · right
              exact ⟨h1, fun b h => by cases h⟩
          | noSave =>
            dsimp only
            rcases hw with ⟨b2, h1, _, _⟩ | ⟨h1, _⟩
            · cases h1
            · subst h1
              simp only [List.nil_append]
              exact ih
theorem extractImage_writes (resp : ResponseBody) :
    (∃ b, (extractImage resp).1 = .saved b ∧ (extractImage resp).2.2 = [b] ∧
      ∃ s, b64decode s = some b) ∨
    ((extractImage resp).2.2 = [] ∧ ∀ b, (extractImage resp).1 ≠ .saved b) := by
  unfold extractImage
  cases hc : resp.candidates with
  | none => right; exact ⟨rfl, fun b h => by cases h⟩
  | some cs =>
    dsimp only
    by_cases he : cs.isEmpty = true
    · rw [if_pos he]
      right
      exact ⟨rfl, fun b h => by cases h⟩
    · rw [if_neg he]
      exact extractLoop_writes resp cs
/-! ## Shared helpers for the extraction claims -/

theorem respNoNoImage_forall {resp : ResponseBody} {cs : List Candidate}
    (hc : resp.candidates = some cs) (h : respNoNoImage resp = true) :
    ∀ c ∈ cs, finishOf c ≠ "NO_IMAGE" := by
  simp only [respNoNoImage, hc] at h
  intro c hcm
  simpa using List.all_eq_true.mp h c hcm
theorem respNoInline_forall {resp : ResponseBody} {cs : List Candidate}
    (hc : resp.candidates = some cs) (h : respNoInline resp = true) :
    ∀ c ∈ cs, candNoInline c = true := by
  simp only [respNoInline, hc] at h
  exact fun c hcm => List.all_eq_true.mp h c hcm
theorem extractImage_allNoSave (resp : ResponseBody)
    (h1 : respNoNoImage resp = true) (h2 : respNoInline resp = true) :
    (extractImage resp).1 = .noImageData resp := by
  unfold extractImage
  cases hc : resp.candidates with
  | none => rfl
  | some cs =>
    dsimp only
    by_cases he : cs.isEmpty = true
    · rw [if_pos he]
    · rw [if_neg he]
      exact extractLoop_allNoSave resp cs (respNoNoImage_forall hc h1) (respNoInline_forall hc h2)
/-! ## Claim theorems: extraction -/
/-- C1 counterexample: a response whose first candidate carries a valid
inline image and whose second candidate has finishReason NO_IMAGE is
extracted as a saved image, not as the NoImageProduced failure, even though
some candidate has finishReason NO_IMAGE. -/
theorem C1_counterexample :
    (∃ c ∈ exSavedThenNoImage.candidates.getD [], finishOf c = "NO_IMAGE") ∧
    (extractImage exSavedThenNoImage).1 = .saved [65] ∧
    (extractImage exSavedThenNoImage).1 ≠ .noImage exSavedThenNoImage := by
  refine ⟨?_, ?_, ?_⟩ <;> decide
/-- C1 amended: if some candidate has finishReason NO_IMAGE and every
candidate before it neither saves an image nor raises (each earlier
candidate also has finishReason NO_IMAGE, or its parts walk finds nothing to
save), extraction fails with the NO_IMAGE exit carrying the full raw
response — even when a later candidate contains a valid inline image part. -/
theorem C1_amended (resp : ResponseBody) (pre post : List Candidate) (c : Candidate)
    (hc : resp.candidates = some (pre ++ c :: post))
    (hfin : finishOf c = "NO_IMAGE")
    (hpre : ∀ c' ∈ pre, finishOf c' = "NO_IMAGE" ∨ candNoSave c' = true) :
    (extractImage resp).1 = .noImage resp := by
  unfold extractImage
  rw [hc]
  dsimp only
  rw [if_neg (by cases pre <;> simp)]
  exact extractLoop_noImage_at resp pre c post hfin hpre
/-- Witness for C1 as amended: NO_IMAGE on the second candidate (after a
text-only candidate) wins over a valid image in the third candidate. -/
theorem C1_amended_witness :
    (extractImage exNoImageSecond).1 = .noImage exNoImageSecond :=
  C1_amended exNoImageSecond [⟨some "STOP", some (some [⟨none, some "thinking"⟩])⟩]
    [⟨some "STOP", some (some [⟨some (some "QQ=="), none⟩])⟩]
    ⟨some "NO_IMAGE", none⟩ rfl rfl (by decide)
/-- C2 counterexample: the room-detection extractor raises an uncaught
exception (a KeyError, modelled by `Except.error`) on a response body with
no candidates field, instead of failing closed into a diagnosed failure. -/
theorem C2_counterexample :
    extractRoomText ⟨none⟩ = .error "KeyError: candidates" ∧
    (detect_room (some "key") "p" [1, 2, 3] "room.jpg" (200, ⟨none⟩)).1 =
      .raised "KeyError: candidates" := by
  exact ⟨rfl, by decide⟩
/-- C2 amended: the image-generation extractor fails closed — for every
response body lacking the expected fields (no candidates list, candidates
without content or parts, parts without the inlineData key), as long as no
candidate has finishReason NO_IMAGE, extraction returns the diagnosed
no-image-data failure rather than raising; the room-detection extractor
instead raises an uncaught KeyError/IndexError on such bodies. -/
theorem C2_amended (resp : ResponseBody)
    (h1 : respNoNoImage resp = true) (h2 : respNoInline resp = true) :
    (extractImage resp).1 = .noImageData resp :=
  extractImage_allNoSave resp h1 h2
/-- Witness for C2 as amended at a body with a contentless candidate, a
parts-less candidate, and a part with no keys. -/
theorem C2_amended_witness :
    (extractImage exMalformed).1 = .noImageData exMalformed :=
  C2_amended exMalformed (by decide) (by decide)
set_option maxRecDepth 8192 in
/-- C5 counterexample: a text-only response yields the same generic
no-image-data failure as a contentless response — the code has no distinct
UnexpectedTextResponse outcome (both reach the shared exit at lines
231–234); the text appears only in the printed diagnostics. -/
theorem C5_counterexample :
    (extractImage exTextResp).1 = .noImageData exTextResp ∧
    (extractImage exEmptyContent).1 = .noImageData exEmptyContent ∧
    (extractImage exTextResp).2.1 = ["I cannot generate that image"] := by
  refine ⟨?_, ?_, ?_⟩ <;> decide
/-- C5 amended: for every response whose candidates contain a text part but
no part with inline data (and no NO_IMAGE finish reason), extraction surfaces
the text (truncated to 100 characters) as a diagnostic and fails with the
same generic no-image-data failure used for NoContent, not with a distinct
text-carrying outcome. -/
theorem C5_amended (resp : ResponseBody) (t : String)
    (h1 : respNoNoImage resp = true) (h2 : respNoInline resp = true)
    (h3 : ∃ cs, resp.candidates = some cs ∧
      ∃ c ∈ cs, ∃ ps, c.content = some (some ps) ∧ ∃ p ∈ ps, p.text = some t) :
    (extractImage resp).1 = .noImageData resp ∧
    t.take 100 ∈ (extractImage resp).2.1 := by
  rcases h3 with ⟨cs, hc, hex⟩
  refine ⟨extractImage_allNoSave resp h1 h2, ?_⟩
  unfold extractImage
  rw [hc]
  dsimp only
  have hne : ¬(cs.isEmpty = true) := by
    rcases hex with ⟨c, hcm, _⟩
    cases cs
    · simp at hcm
    · simp
  rw [if_neg hne]
  exact extractLoop_text_mem resp cs t (respNoNoImage_forall hc h1)
    (respNoInline_forall hc h2) hex
/-- Witness for C5 as amended at a one-candidate text-only response. -/
theorem C5_amended_witness :
    (extractImage exTextResp).1 = .noImageData exTextResp ∧
    ("I cannot generate that image".take 100) ∈ (extractImage exTextResp).2.1 :=
  C5_amended exTextResp "I cannot generate that image" (by decide) (by decide)
    ⟨[⟨some "STOP", some (some [⟨none, some "I cannot generate that image"⟩])⟩], rfl,
     ⟨some "STOP", some (some [⟨none, some "I cannot generate that image"⟩])⟩, by decide,
     [⟨none, some "I cannot generate that image"⟩], rfl,
     ⟨none, some "I cannot generate that image"⟩, by decide, rfl⟩
/-- C8: on every run, bytes are written to the output path exactly when the
run ends in the saved-image extraction outcome — a single write of exactly
the bytes produced by a successful base64 decode of an inline data payload;
every other ending (configuration, input, transport, or extraction failure)
writes nothing. -/
theorem C8_no_partial_output (api_key : Option String) (input_exists : Bool)
    (image_data : List Nat) (prompt input_image_path : String) (f : Nat → HttpAttempt) :
    writesOk (generate_image api_key input_exists image_data prompt input_image_path f) := by
  unfold generate_image
  cases api_key with
  | none => exact rfl
  | some k =>
    by_cases hex : (¬ input_exists = true)
    · rw [if_pos hex]
      exact rfl
    · rw [if_neg hex]
      by_cases h0 : image_data.length = 0
      · rw [if_pos h0]
        exact rfl
      · rw [if_neg h0]
        by_cases hsm : image_data.length < min_image_size
        · rw [if_pos hsm]
          exact rfl
        · rw [if_neg hsm]
          dsimp only
          rcases htr : transport f with ⟨tr, n, ss⟩
          cases tr with
          | success body =>
            dsimp only
            rcases hext : extractImage body with ⟨o, ds, ws⟩
            have hw := extractImage_writes body
            rw [hext] at hw
            dsimp only at hw
            cases o with
            | saved b =>
              show ws = [b] ∧ ∃ s, b64decode s = some b
              rcases hw with ⟨b2, h1, h2, h3⟩ | ⟨h1, h2⟩
              · injection h1 with hb
                subst hb
                exact ⟨h2, h3⟩
              · exact absurd rfl (h2 b)
            | noImage raw =>
              show ws = []
              rcases hw with ⟨b2, h1, _, _⟩ | ⟨h1, _⟩
              · cases h1
              · exact h1
            | noImageData raw =>
              show ws = []
              rcases hw with ⟨b2, h1, _, _⟩ | ⟨h1, _⟩
              · cases h1
              · exact h1
            | exc =>
              show ws = []
              rcases hw with ⟨b2, h1, _, _⟩ | ⟨h1, _⟩
              · cases h1
              · exact h1
          | rateLimited body => exact rfl
          | terminalStatus s2 body => exact rfl
          | timeoutFail => exact rfl
          | netFail m => exact rfl
          | noValidResponse => exact rfl
/-- C6 counterexample: the empty byte buffer is shorter than 10,000 bytes,
but the run rejects it with the EmptyInput exit (line 47), not the
InputTooSmall exit (line 53). -/
theorem C6_counterexample :
    ([] : List Nat).length < min_image_size ∧
    (generate_image (some "key") true [] "p" "room.jpg" (fun _ => .timeout)).result =
      .emptyInput ∧
    (generate_image (some "key") true [] "p" "room.jpg" (fun _ => .timeout)).result ≠
      .inputTooSmall := by
  refine ⟨?_, ?_, ?_⟩ <;> decide
/-- C6 amended: for every input image buffer shorter than 10,000 bytes, the
image-generation run terminates before any network call (zero attempts, no
sleeps, no writes), rejecting with InputTooSmall when the buffer is nonempty
and with EmptyInput when it is empty. -/
theorem C6_amended (key : String) (image_data : List Nat) (prompt input_image_path : String)
    (f : Nat → HttpAttempt) (hsmall : image_data.length < min_image_size) :
    (generate_image (some key) true image_data prompt input_image_path f).attempts = 0 ∧
    (generate_image (some key) true image_data prompt input_image_path f).sleeps = [] ∧
    (generate_image (some key) true image_data prompt input_image_path f).writes = [] ∧
    (0 < image_data.length →
      (generate_image (some key) true image_data prompt input_image_path f).result =
        .inputTooSmall) ∧
    (image_data.length = 0 →
      (generate_image (some key) true image_data prompt input_image_path f).result =
        .emptyInput) := by
  unfold generate_image
  dsimp only
  by_cases h0 : image_data.length = 0
  · rw [if_neg (by simp), if_pos h0]
    exact ⟨rfl, rfl, rfl, fun h => absurd h0 (by omega), fun _ => rfl⟩
  · rw [if_neg (by simp), if_neg h0, if_pos hsmall]
    exact ⟨rfl, rfl, rfl, fun _ => rfl, fun h => absurd h h0⟩
/-- Witness for C6 as amended at a 3-byte input image. -/
theorem C6_amended_witness :
    (generate_image (some "key") true [1, 2, 3] "p" "room.jpg" (fun _ => .timeout)).attempts = 0 ∧
    (generate_image (some "key") true [1, 2, 3] "p" "room.jpg" (fun _ => .timeout)).result =
      .inputTooSmall := by
  have h := C6_amended "key" [1, 2, 3] "p" "room.jpg" (fun _ => .timeout) (by decide)
  exact ⟨h.1, h.2.2.2.1 (by decide)⟩
theorem take_of_take_longer {l : List Nat} {m n : Nat} {a : List Nat}
    (h : l.take m = a) (hnm : n ≤ m) : l.take n = a.take n := by
  rw [← h, List.take_take, Nat.min_eq_left hnm]
/-- C9: for every byte buffer beginning with one of the four magic
signatures, detection returns the corresponding MIME type with no fallback
diagnostic, regardless of the file path; for any other leading bytes it
falls back to the lower-cased path extension with a diagnostic, defaulting
to image/jpeg when the extension is unrecognized. -/
theorem C9_media_type_detection (image_data : List Nat) (input_image_path : String) :
    (image_data.take 3 = jpegMagic →
      detectMediaType image_data input_image_path = ("image/jpeg", false)) ∧
    (image_data.take 8 = pngMagic →
      detectMediaType image_data input_image_path = ("image/png", false)) ∧
    (image_data.take 6 = gif87Magic ∨ image_data.take 6 = gif89Magic →
      detectMediaType image_data input_image_path = ("image/gif", false)) ∧
    (image_data.take 4 = riffMagic ∧ (image_data.drop 8).take 4 = webpTag →
      detectMediaType image_data input_image_path = ("image/webp", false)) ∧
    (image_data.take 3 ≠ jpegMagic → image_data.take 8 ≠ pngMagic →
      image_data.take 6 ≠ gif87Magic → image_data.take 6 ≠ gif89Magic →
      ¬(image_data.take 4 = riffMagic ∧ (image_data.drop 8).take 4 = webpTag) →
      detectMediaType image_data input_image_path =
        (if strEndsWith (strLower input_image_path) ".png" then ("image/png", true)
         else if strEndsWith (strLower input_image_path) ".gif" then ("image/gif", true)
         else if strEndsWith (strLower input_image_path) ".webp" then ("image/webp", true)
         else ("image/jpeg", true))) := by
  refine ⟨?_, ?_, ?_, ?_, ?_⟩
  · intro h
    unfold detectMediaType
    rw [if_pos h]
  · intro h
    have h3 : image_data.take 3 = pngMagic.take 3 := take_of_take_longer h (by omega)
    unfold detectMediaType
    rw [if_neg (by rw [h3]; decide), if_pos h]
  · intro h
    have h3 : image_data.take 3 = [71, 73, 70] := by
      rcases h with h | h
      · exact take_of_take_longer h (by omega)
      · exact take_of_take_longer h (by omega)
    have h8 : image_data.take 8 ≠ pngMagic := by
      intro hp
      have h6 := take_of_take_longer hp (show 6 ≤ 8 by omega)
      rcases h with h | h <;> rw [h] at h6 <;> exact absurd h6 (by decide)
    unfold detectMediaType
    rw [if_neg (by rw [h3]; decide), if_neg h8, if_pos h]
  · rintro ⟨h4, hw⟩
    have h3 : image_data.take 3 = riffMagic.take 3 := take_of_take_longer h4 (by omega)
    have h8 : image_data.take 8 ≠ pngMagic := by
      intro hp
      have := take_of_take_longer hp (show 4 ≤ 8 by omega)
      rw [h4] at this
      exact absurd this (by decide)
    have h6a : image_data.take 6 ≠ gif87Magic := by
      intro hg
      have := take_of_take_longer hg (show 4 ≤ 6 by omega)
      rw [h4] at this
      exact absurd this (by decide)
    have h6b : image_data.take 6 ≠ gif89Magic := by
      intro hg
      have := take_of_take_longer hg (show 4 ≤ 6 by omega)
      rw [h4] at this
      exact absurd this (by decide)
    unfold detectMediaType
    rw [if_neg (by rw [h3]; decide), if_neg h8,
      if_neg (by rintro (hg | hg); exacts [h6a hg, h6b hg]), if_pos ⟨h4, hw⟩]
  · intro hj hp hg7 hg9 hw
    unfold detectMediaType
    rw [if_neg hj, if_neg hp, if_neg (by rintro (h | h); exacts [hg7 h, hg9 h]), if_neg hw]
/-- Witness for C9: PNG magic wins over a .JPG extension, and an
unrecognized signature falls back to the lower-cased .WebP extension with
the diagnostic flag set. -/
theorem C9_media_type_detection_witness :
    detectMediaType pngMagic "photo.JPG" = ("image/png", false) ∧
    detectMediaType [0, 1, 2] "photo.WebP" = ("image/webp", true) := by
  constructor
  · exact (C9_media_type_detection pngMagic "photo.JPG").2.1 (by decide)
  · have h := (C9_media_type_detection [0, 1, 2] "photo.WebP").2.2.2.2
      (by decide) (by decide) (by decide) (by decide) (by decide)
    rw [h]
    decide
